import Mathlib

/-!
Verification development for the JasperMate I/O manager (Go sources under
`src/server/localio` and the manager file `unnamed/part_001`).

Shallow embedding conventions:
* Go `float32` values are modelled as `ℚ`; the only float operations the
  claims touch are equality comparison and multiplication by 1000, which the
  rational model reflects one-to-one.  The bit-level decoding
  `math.Float32frombits` is abstracted as an explicit parameter
  `fdec : Nat → ℚ` passed to `readCard`.
* The Modbus bus is modelled by oracles: `bus : ReadReq → Except String (List Nat)`
  for reads (payload bytes), `busErr : Frame → Option String` for writes
  (`none` = the write frame was acknowledged), and
  `portErr : String → Option String` for `ensurePort`.
* Write frames record what goes on the wire: coil frames carry the packed
  bytes produced by `packBits`, register frames for AO carry the float list
  (the byte encoding of floats is injective and not inspected by any claim).
* Go `time.Time` is modelled as a `Nat` tick passed in as `now`.
* Go map iteration order (in `GroupWriteOperations` and the cards map) is
  nondeterministic; the embedding fixes first-occurrence insertion order.
  All proved statements about grouped frames are per-card/per-group and
  therefore insensitive to that choice.
-/

/-- ModelSpec from models.go: immutable channel counts of a module. -/
structure ModelSpec where
  Name : String
  DI : Nat
  DO : Nat
  AI : Nat
  AO : Nat
deriving DecidableEq, Repr

/-- The closed model table from models.go (`ModelTable`), as a lookup. -/
def ModelTable : String → Option ModelSpec
  | "IO0404" => some ⟨"IO0404", 0, 0, 4, 4⟩
  | "IO0440" => some ⟨"IO0440", 0, 4, 4, 0⟩
  | "IO4040" => some ⟨"IO4040", 4, 4, 0, 0⟩
  | "IO8000" => some ⟨"IO8000", 8, 0, 0, 0⟩
  | "IO0080" => some ⟨"IO0080", 0, 8, 0, 0⟩
  | _ => none

/-- Go's `ModelTable[name]` map read: missing keys yield the zero ModelSpec. -/
def modelTableGet (name : String) : ModelSpec :=
  (ModelTable name).getD ⟨"", 0, 0, 0, 0⟩

/-- CardState: the cached per-card snapshot (part_001 / port.go).
`timestamp` is an abstract tick; floats are modelled as `ℚ`. -/
structure CardState where
  timestamp : Nat := 0
  DI : List Bool := []
  DO : List Bool := []
  AI : List ℚ := []
  AO : List ℚ := []
  AOType : List String := []
  serialNumber : String := ""
  baudRate : Nat := 0
  error : String := ""
deriving DecidableEq, Repr

/-- The Go zero value of CardState (fresh card's `Last`). -/
def CardState.zero : CardState := {}

/-- Card record from part_001: registry entry with cached state and the
level-triggered full-read flag. -/
structure Card where
  id : String
  portPath : String
  slaveID : Nat
  module : String
  last : CardState := CardState.zero
  needsFullRead : Bool := false
deriving DecidableEq, Repr

/-- SafeStateConfig from part_001. -/
structure SafeStateConfig where
  DOState : Bool
  AOVoltageValue : ℚ
  AOCurrentValue : ℚ
deriving DecidableEq, Repr

/-- DefaultSafeStateConfig from part_001. -/
def DefaultSafeStateConfig : SafeStateConfig :=
  { DOState := false, AOVoltageValue := 0, AOCurrentValue := 4 }

/-- A Modbus write frame as it leaves the port session (port.go). Coil
payloads are the packed bytes; AO register payloads are kept at the float
level. -/
inductive Frame
  /-- WriteMultipleCoils (0x0F): slave, start address, quantity, packed bytes. -/
  | wmCoils (slave addr qty : Nat) (payload : List Nat)
  /-- WriteMultipleRegisters (0x10) carrying float channels: slave, start
  register address, register quantity, float values. -/
  | wmRegs (slave addr qty : Nat) (values : List ℚ)
  /-- WriteSingleRegister (0x06): slave, address, value. -/
  | wsReg (slave addr value : Nat)
deriving DecidableEq, Repr

/-- A Modbus read request issued by readCard / probes (port.go). -/
inductive ReadReq
  | discreteInputs (slave addr qty : Nat)
  | coils (slave addr qty : Nat)
  | inputRegs (slave addr qty : Nat)
  | holdingRegs (slave addr qty : Nat)
deriving DecidableEq, Repr

/-- Inner loop of packBits (port.go): OR each true value's bit into its byte. -/
def packBitsGo (bytes : List Nat) (values : List Bool) (start : Nat) : List Nat :=
  match values with
  | [] => bytes
  | v :: rest =>
    let bytes' := if v then
        bytes.set (start / 8) ((bytes.getD (start / 8) 0) ||| (1 <<< (start % 8)))
      else bytes
    packBitsGo bytes' rest (start + 1)

/-- packBits from port.go: bool slice to LSB-first packed bytes,
`(len+7)/8` bytes, zero padded. -/
def packBits (values : List Bool) : List Nat :=
  packBitsGo (List.replicate ((values.length + 7) / 8) 0) values 0

/-- unpackBits from port.go: packed coil/DI bytes to a bool list of length
`count`; out-of-range bytes read as zero. -/
def unpackBits (raw : List Nat) (count : Nat) : List Bool :=
  (List.range count).map (fun i => ((raw.getD (i / 8) 0).testBit (i % 8)))

/-- Bit `p` of a packed byte list (LSB-first within each byte). -/
def coilBit (bytes : List Nat) (p : Nat) : Bool :=
  (bytes.getD (p / 8) 0).testBit (p % 8)


theorem getD_set_zero (bytes : List Nat) (i v j : Nat) :
    (bytes.set i v).getD j 0 = if i = j ∧ i < bytes.length then v else bytes.getD j 0 := by
  by_cases hj : j < bytes.length
  · rw [List.getD_eq_getElem _ _ (by simpa using hj), List.getD_eq_getElem _ _ hj]
    by_cases hij : i = j
    · subst hij
      simp [List.getElem_set_self, hj]
    · rw [List.getElem_set_ne hij]
      simp [hij]
  · have h1 : bytes.length ≤ j := by omega
    rw [List.getD_eq_default _ _ (by simpa using h1), List.getD_eq_default _ _ h1]
    have h2 : ¬ (i = j ∧ i < bytes.length) := by rintro ⟨rfl, h⟩; omega
    simp [h2]

theorem shl_one_testBit (n i : Nat) : (1 <<< i : Nat).testBit n = decide (n = i) := by
  have h2 : (1 <<< i : Nat) = 2 ^ i := by simp [Nat.shiftLeft_eq]
  rw [h2]
  by_cases h : n = i
  · subst h; simp [Nat.testBit_two_pow_self]
  · simp [h, Nat.testBit_two_pow_of_ne (by omega : i ≠ n)]

theorem packBitsGo_length (values : List Bool) (bytes : List Nat) (start : Nat) :
    (packBitsGo bytes values start).length = bytes.length := by
  induction values generalizing bytes start with
  | nil => rfl
  | cons v rest ih =>
    simp only [packBitsGo]
    rw [ih]
    split <;> simp

theorem coilBit_set_or (bytes : List Nat) (s p : Nat) :
    coilBit (bytes.set (s / 8) ((bytes.getD (s / 8) 0) ||| (1 <<< (s % 8)))) p = true ↔
      (coilBit bytes p = true ∨ (p = s ∧ s / 8 < bytes.length)) := by
  unfold coilBit
  rw [getD_set_zero]
  by_cases hb : s / 8 < bytes.length
  · by_cases hquot : p / 8 = s / 8
    · rw [if_pos ⟨hquot.symm, hb⟩, Nat.testBit_or, shl_one_testBit]
      have hps : p % 8 = s % 8 ↔ p = s := by omega
      rw [hquot]
      by_cases hrem : p % 8 = s % 8
      · simp [hrem, hps.mp hrem, hb]
      · have hnp : ¬ (p = s) := fun h => hrem (hps.mpr h)
        simp [hrem, hnp]
    · rw [if_neg (by rintro ⟨h, _⟩; exact hquot h.symm)]
      have hnp : ¬ (p = s) := fun h => hquot (by rw [h])
      simp [hnp]
  · rw [if_neg (by rintro ⟨_, h⟩; omega)]
    have h2 : ¬ (p = s ∧ s / 8 < bytes.length) := by rintro ⟨_, h⟩; omega
    simp [h2]

theorem packBitsGo_coilBit (values : List Bool) (bytes : List Nat) (start p : Nat) :
    coilBit (packBitsGo bytes values start) p = true ↔
      (coilBit bytes p = true ∨
        (start ≤ p ∧ p < start + values.length ∧
          values.getD (p - start) false = true ∧ p / 8 < bytes.length)) := by
  induction values generalizing bytes start with
  | nil =>
    simp only [packBitsGo, List.length_nil]
    constructor
    · exact Or.inl
    · rintro (h | ⟨_, h2, _, _⟩)
      · exact h
      · omega
  | cons v rest ih =>
    simp only [packBitsGo]
    split
    · next hv =>
      rw [ih, List.length_set, coilBit_set_or]
      constructor
      · rintro ((h | ⟨hp, hb⟩) | ⟨h1, h2, h3, h4⟩)
        · exact Or.inl h
        · subst hp
          refine Or.inr ⟨le_refl _, by simp, ?_, hb⟩
          simpa [Nat.sub_self] using hv
        · refine Or.inr ⟨by omega, by simp only [List.length_cons]; omega, ?_, h4⟩
          have h5 : p - start = (p - (start + 1)) + 1 := by omega
          rw [h5, List.getD_cons_succ]
          exact h3
      · rintro (h | ⟨h1, h2, h3, h4⟩)
        · exact Or.inl (Or.inl h)
        · by_cases hp : p = start
          · exact Or.inl (Or.inr ⟨hp, by omega⟩)
          · refine Or.inr ⟨by omega, by simp only [List.length_cons] at h2 ⊢; omega, ?_, h4⟩
            have h5 : p - start = (p - (start + 1)) + 1 := by omega
            rw [h5, List.getD_cons_succ] at h3
            exact h3
    · next hv =>
      rw [ih]
      have hvf : v = false := by revert hv; cases v <;> simp
      subst hvf
      constructor
      · rintro (h | ⟨h1, h2, h3, h4⟩)
        · exact Or.inl h
        · refine Or.inr ⟨by omega, by simp only [List.length_cons]; omega, ?_, h4⟩
          have h5 : p - start = (p - (start + 1)) + 1 := by omega
          rw [h5, List.getD_cons_succ]
          exact h3
      · rintro (h | ⟨h1, h2, h3, h4⟩)
        · exact Or.inl h
        · by_cases hp : p = start
          · subst hp
            rw [Nat.sub_self, List.getD_cons_zero] at h3
            exact absurd h3 (by simp)
          · refine Or.inr ⟨by omega, by simp only [List.length_cons] at h2 ⊢; omega, ?_, h4⟩
            have h5 : p - start = (p - (start + 1)) + 1 := by omega
            rw [h5, List.getD_cons_succ] at h3
            exact h3

/-- Bit-level characterization of packBits: bit `p` of the packed bytes is
exactly the `p`-th input bool (false in the padding). -/
theorem packBits_coilBit (values : List Bool) (p : Nat) :
    coilBit (packBits values) p = values.getD p false := by
  unfold packBits
  have hz : coilBit (List.replicate ((values.length + 7) / 8) 0) p = false := by
    unfold coilBit
    rcases Nat.lt_or_ge (p / 8) ((values.length + 7) / 8) with h | h
    · simp [List.getD, List.getElem?_replicate, h]
    · rw [List.getD_eq_default _ _ (by simpa using h)]
      simp
  by_cases hlt : p < values.length
  · have hb : p / 8 < (values.length + 7) / 8 := by omega
    cases hval : values.getD p false
    · rw [← Bool.not_eq_true]
      rw [packBitsGo_coilBit, List.length_replicate]
      rintro (h | ⟨_, _, h3, _⟩)
      · rw [hz] at h; exact absurd h (by simp)
      · rw [Nat.sub_zero, hval] at h3; exact absurd h3 (by simp)
    · rw [packBitsGo_coilBit, List.length_replicate]
      exact (Or.inr ⟨Nat.zero_le _, by omega, by rwa [Nat.sub_zero], hb⟩)
  · rw [List.getD_eq_default _ _ (by omega)]
    rw [← Bool.not_eq_true, packBitsGo_coilBit, List.length_replicate]
    rintro (h | ⟨_, h2, _, _⟩)
    · rw [hz] at h; exact absurd h (by simp)
    · omega

/-- Round trip: unpacking the packed bytes returns the original bools
(spec §8 round-trip law, used to read frame payloads back). -/
theorem unpackBits_packBits (values : List Bool) :
    unpackBits (packBits values) values.length = values := by
  unfold unpackBits
  apply List.ext_getElem
  · simp
  · intro i h1 h2
    simp only [List.getElem_map, List.getElem_range]
    have hi : i < values.length := by simpa using h2
    have hcb := packBits_coilBit values i
    unfold coilBit at hcb
    rw [hcb, List.getD_eq_getElem _ _ hi]

/-! ## Safe-state engine (part_001, `WriteAllOutputsToSafeState`) -/

/-- writeMultipleDO from port.go: one WriteMultipleCoils frame,
quantity = number of values, payload = packBits values. -/
def writeMultipleDO (slave : Nat) (startIndex : Nat) (values : List Bool) : Frame :=
  Frame.wmCoils slave startIndex values.length (packBits values)

/-- writeMultipleAO from port.go: one WriteMultipleRegisters frame at
register address `startIndex*2`, quantity `len*2`, carrying the floats. -/
def writeMultipleAO (slave : Nat) (startIndex : Nat) (values : List ℚ) : Frame :=
  Frame.wmRegs slave (startIndex * 2) (values.length * 2) values

/-- The safe AO value list built by WriteAllOutputsToSafeState: per channel,
4-20mA channels get AOCurrentValue*1000, everything else (0-10V, unknown
hex type, or missing cache entry) gets AOVoltageValue*1000. -/
def aoSafeValues (cfg : SafeStateConfig) (aoType : List String) (n : Nat) : List ℚ :=
  (List.range n).map (fun i =>
    if i < aoType.length ∧ aoType.getD i "" = "4-20mA" then
      cfg.AOCurrentValue * 1000
    else
      cfg.AOVoltageValue * 1000)

/-- One card's slice of WriteAllOutputsToSafeState: the frames attempted for
the card and the first error the card produced (port, then DO write, then
AO write). A port failure skips the card's writes (`continue`). -/
def safeStateCard (cfg : SafeStateConfig) (portErr : String → Option String)
    (busErr : Frame → Option String) (card : Card) : List Frame × Option String :=
  match portErr card.portPath with
  | some e => ([], some ("card " ++ card.id ++ ": failed to get port: " ++ e))
  | none =>
    let spec := modelTableGet card.module
    let (doFrames, doErr) :=
      if 0 < spec.DO then
        let f := writeMultipleDO card.slaveID 0 (List.replicate spec.DO cfg.DOState)
        ([f], (busErr f).map
          (fun e => "card " ++ card.id ++ ": failed to write DO to safe state: " ++ e))
      else ([], none)
    let (aoFrames, aoErr) :=
      if 0 < spec.AO then
        let f := writeMultipleAO card.slaveID 0 (aoSafeValues cfg card.last.AOType spec.AO)
        ([f], (busErr f).map
          (fun e => "card " ++ card.id ++ ": failed to write AO to safe state: " ++ e))
      else ([], none)
    (doFrames ++ aoFrames,
      match doErr with
      | some e => some e
      | none => aoErr)

/-- Go's `if firstErr == nil { firstErr = e }` accumulation. -/
def keepFirstErr (acc e : Option String) : Option String :=
  match acc with
  | some x => some x
  | none => e

/-- WriteAllOutputsToSafeState from part_001: iterate all registered cards
(in the given snapshot order), attempt every card's safe-state writes,
remember the first error, and wrap it at the end. Returns (result, frames
attempted in order). -/
def WriteAllOutputsToSafeState (cards : List Card) (cfg : SafeStateConfig)
    (portErr : String → Option String) (busErr : Frame → Option String) :
    Option String × List Frame :=
  let r := cards.foldl
    (fun (acc : Option String × List Frame) card =>
      let (fs, e) := safeStateCard cfg portErr busErr card
      (keepFirstErr acc.1 e, acc.2 ++ fs))
    (none, [])
  ((r.1).map
    (fun e => "WriteAllOutputsToSafeState completed with errors: " ++ e), r.2)

/-- First `some` in a list of optional errors, in order. -/
def firstSome (es : List (Option String)) : Option String :=
  es.foldl keepFirstErr none

theorem keepFirstErr_none (e : Option String) : keepFirstErr none e = e := rfl

theorem keepFirstErr_some (x : String) (e : Option String) :
    keepFirstErr (some x) e = some x := rfl

theorem foldl_keepFirstErr_some (es : List (Option String)) (x : String) :
    es.foldl keepFirstErr (some x) = some x := by
  induction es with
  | nil => rfl
  | cons e rest ih => simpa [keepFirstErr_some] using ih

theorem firstSome_cons (e : Option String) (es : List (Option String)) :
    firstSome (e :: es) = keepFirstErr e (firstSome es) := by
  unfold firstSome
  cases e with
  | none => simp [keepFirstErr]
  | some x => simp [keepFirstErr, foldl_keepFirstErr_some]

theorem firstSome_eq_none_iff (es : List (Option String)) :
    firstSome es = none ↔ ∀ e ∈ es, e = none := by
  induction es with
  | nil => simp [firstSome]
  | cons e rest ih =>
    rw [firstSome_cons]
    cases e with
    | none => simpa [keepFirstErr] using ih
    | some x => simp [keepFirstErr]

theorem writeAllOutputs_foldl_spec (cards : List Card) (cfg : SafeStateConfig)
    (portErr : String → Option String) (busErr : Frame → Option String)
    (acc : Option String × List Frame) :
    cards.foldl
      (fun (acc : Option String × List Frame) card =>
        let (fs, e) := safeStateCard cfg portErr busErr card
        (keepFirstErr acc.1 e, acc.2 ++ fs))
      acc =
    (keepFirstErr acc.1 (firstSome (cards.map (fun c => (safeStateCard cfg portErr busErr c).2))),
      acc.2 ++ cards.flatMap (fun c => (safeStateCard cfg portErr busErr c).1)) := by
  induction cards generalizing acc with
  | nil =>
    cases acc with
    | mk e fs =>
      cases e <;> simp [firstSome, keepFirstErr]
  | cons c rest ih =>
    simp only [List.foldl_cons, List.map_cons, List.flatMap_cons]
    rw [ih]
    cases acc with
    | mk e fs =>
      cases e with
      | none =>
        rw [firstSome_cons]
        cases (safeStateCard cfg portErr busErr c).2 <;>
          simp [keepFirstErr, List.append_assoc]
      | some x =>
        simp [keepFirstErr, List.append_assoc]

def Frame.isWMCoils : Frame → Bool
  | .wmCoils _ _ _ _ => true
  | _ => false

def Frame.isWMRegs : Frame → Bool
  | .wmRegs _ _ _ _ => true
  | _ => false

theorem packBits_replicate_coilBit (n : Nat) (b : Bool) (i : Nat) (h : i < n) :
    coilBit (packBits (List.replicate n b)) i = b := by
  rw [packBits_coilBit, List.getD_eq_getElem _ _ (by simpa using h), List.getElem_replicate]

theorem aoSafeValues_length (cfg : SafeStateConfig) (l : List String) (n : Nat) :
    (aoSafeValues cfg l n).length = n := by
  simp [aoSafeValues]

theorem aoSafeValues_getD (cfg : SafeStateConfig) (l : List String) (n i : Nat) (h : i < n) :
    (aoSafeValues cfg l n).getD i 0 =
      if l[i]? = some "4-20mA" then cfg.AOCurrentValue * 1000
      else cfg.AOVoltageValue * 1000 := by
  rw [List.getD_eq_getElem _ _ (by simpa [aoSafeValues] using h)]
  unfold aoSafeValues
  simp only [List.getElem_map, List.getElem_range]
  by_cases hi : i < l.length
  · rw [List.getElem?_eq_getElem hi, List.getD_eq_getElem _ _ hi]
    by_cases hm : l[i] = "4-20mA"
    · simp [hi, hm]
    · simp [hi, hm]
  · rw [List.getElem?_eq_none (by omega), if_neg (by rintro ⟨h3, _⟩; omega),
      if_neg (by simp)]

/-- C2: WriteAllOutputsToSafeState attempts every registered card's writes
even when some card fails (the attempted frame list is the concatenation of
every card's frames, independent of errors), remembers the first error and
returns it only at the end, and returns nil exactly when no card failed. -/
theorem safe_state_attempts_all_and_first_error (cards : List Card)
    (cfg : SafeStateConfig) (portErr : String → Option String)
    (busErr : Frame → Option String) :
    (WriteAllOutputsToSafeState cards cfg portErr busErr).2 =
        cards.flatMap (fun c => (safeStateCard cfg portErr busErr c).1) ∧
      ((WriteAllOutputsToSafeState cards cfg portErr busErr).1 = none ↔
        ∀ c ∈ cards, (safeStateCard cfg portErr busErr c).2 = none) ∧
      (WriteAllOutputsToSafeState cards cfg portErr busErr).1 =
        (firstSome (cards.map (fun c => (safeStateCard cfg portErr busErr c).2))).map
          (fun e => "WriteAllOutputsToSafeState completed with errors: " ++ e) := by
  unfold WriteAllOutputsToSafeState
  rw [writeAllOutputs_foldl_spec]
  refine ⟨by simp [keepFirstErr], ?_, by simp [keepFirstErr]⟩
  constructor
  · intro h
    have h1 : firstSome (cards.map (fun c => (safeStateCard cfg portErr busErr c).2)) = none := by
      simpa [keepFirstErr, Option.map_eq_none'] using h
    intro c hc
    exact (firstSome_eq_none_iff _).mp h1 _ (List.mem_map_of_mem _ hc)
  · intro h
    have h2 : firstSome (cards.map (fun c => (safeStateCard cfg portErr busErr c).2)) = none := by
      rw [firstSome_eq_none_iff]
      intro e he
      obtain ⟨c, hc, rfl⟩ := List.mem_map.mp he
      exact h c hc
    simp [keepFirstErr, h2]

/-- C1: per registered card (ports reachable), WriteAllOutputsToSafeState
emits, for spec.do > 0, exactly one WriteMultipleCoils frame at coil 0 with
spec.do coils all equal to DOState, and, for spec.ao > 0, exactly one
WriteMultipleRegisters frame at the AO base whose spec.ao float values are
AOCurrentValue*1000 for channels cached as "4-20mA" and AOVoltageValue*1000
otherwise, including channels with no cached type. -/
theorem safe_state_per_card_frames (cards : List Card) (cfg : SafeStateConfig)
    (portErr : String → Option String) (busErr : Frame → Option String)
    (hport : ∀ c ∈ cards, portErr c.portPath = none) :
    (WriteAllOutputsToSafeState cards cfg portErr busErr).2 =
      cards.flatMap (fun c => (safeStateCard cfg portErr busErr c).1) ∧
    ∀ c ∈ cards,
      (0 < (modelTableGet c.module).DO →
        ((safeStateCard cfg portErr busErr c).1.filter Frame.isWMCoils) =
          [Frame.wmCoils c.slaveID 0 (modelTableGet c.module).DO
            (packBits (List.replicate (modelTableGet c.module).DO cfg.DOState))] ∧
        ∀ i < (modelTableGet c.module).DO,
          coilBit (packBits (List.replicate (modelTableGet c.module).DO cfg.DOState)) i =
            cfg.DOState) ∧
      (0 < (modelTableGet c.module).AO →
        ((safeStateCard cfg portErr busErr c).1.filter Frame.isWMRegs) =
          [Frame.wmRegs c.slaveID 0 ((modelTableGet c.module).AO * 2)
            (aoSafeValues cfg c.last.AOType (modelTableGet c.module).AO)] ∧
        (aoSafeValues cfg c.last.AOType (modelTableGet c.module).AO).length =
          (modelTableGet c.module).AO ∧
        ∀ i < (modelTableGet c.module).AO,
          (aoSafeValues cfg c.last.AOType (modelTableGet c.module).AO).getD i 0 =
            (if c.last.AOType[i]? = some "4-20mA" then cfg.AOCurrentValue * 1000
             else cfg.AOVoltageValue * 1000)) := by
  refine ⟨(safe_state_attempts_all_and_first_error cards cfg portErr busErr).1, ?_⟩
  intro c hc
  have hp := hport c hc
  constructor
  · intro hdo
    constructor
    · simp only [safeStateCard, hp, writeMultipleDO, writeMultipleAO]
      rw [if_pos hdo]
      by_cases hao : 0 < (modelTableGet c.module).AO
      · rw [if_pos hao]
        simp [Frame.isWMCoils, Frame.isWMRegs, List.length_replicate]
      · rw [if_neg hao]
        simp [Frame.isWMCoils, List.length_replicate]
    · intro i hi
      exact packBits_replicate_coilBit _ _ _ hi
  · intro hao
    refine ⟨?_, aoSafeValues_length cfg _ _, fun i hi => aoSafeValues_getD cfg _ _ i hi⟩
    simp only [safeStateCard, hp, writeMultipleDO, writeMultipleAO]
    rw [if_pos hao]
    by_cases hdo : 0 < (modelTableGet c.module).DO
    · rw [if_pos hdo]
      simp [Frame.isWMCoils, Frame.isWMRegs, aoSafeValues_length]
    · rw [if_neg hdo]
      simp [Frame.isWMRegs, aoSafeValues_length]

def pnone : String → Option String := fun _ => none

def bnone : Frame → Option String := fun _ => none

def cardIO0080 : Card :=
  { id := "1", portPath := "/dev/ttyS7", slaveID := 2, module := "IO0080" }

def cardIO0404 : Card :=
  { id := "2", portPath := "/dev/ttyS7", slaveID := 3, module := "IO0404",
    last := { AOType := ["4-20mA", "0-10V", "4-20mA", "4-20mA"] } }

theorem safe_state_per_card_frames_witness :
    (∀ c ∈ [cardIO0080, cardIO0404], pnone c.portPath = none) ∧
    (WriteAllOutputsToSafeState [cardIO0080, cardIO0404] DefaultSafeStateConfig pnone bnone).2 =
      [cardIO0080, cardIO0404].flatMap
        (fun c => (safeStateCard DefaultSafeStateConfig pnone bnone c).1) :=
  ⟨fun _ _ => rfl,
    (safe_state_per_card_frames [cardIO0080, cardIO0404] DefaultSafeStateConfig pnone bnone
      (fun _ _ => rfl)).1⟩

/-! ## Write queue & batcher (part_001: shouldWrite, GroupWriteOperations,
ProcessBatchWrite, processWriteGroup, processBatchDO/AO/AOType) -/

/-- writeOpType from part_001. -/
inductive WriteOpType
  | DO
  | AO
  | AOType
deriving DecidableEq, Repr

/-- writeOperation from part_001. `index` is a Go int (can be negative until
validated); `value` carries DO bools as 0/1 and AO floats; `mode` is the
AO-type string. -/
structure WriteOperation where
  cardID : String
  type : WriteOpType
  index : Int
  value : ℚ := 0
  mode : String := ""
deriving DecidableEq, Repr

/-- CommandResult from part_001; the Go zero value is `{0, "", ""}`. -/
structure CommandResult where
  index : Nat := 0
  status : String := ""
  message : String := ""
deriving DecidableEq, Repr, Inhabited

/-- WriteGroup from part_001. -/
structure WriteGroup where
  cardID : String
  registerType : WriteOpType
  operations : List WriteOperation
deriving DecidableEq, Repr

/-- `m.cards[id]` / GetCard: lookup in the registry snapshot. -/
def getCard (cards : List Card) (cardID : String) : Option Card :=
  cards.find? (fun c => c.id == cardID)

/-- shouldWrite from part_001: an op is written unless its value equals the
cached value of its channel; channels missing from the cache default to
writing. -/
def shouldWrite (op : WriteOperation) (card : Card) : Bool :=
  match op.type with
  | .DO =>
    if 0 ≤ op.index ∧ op.index < (card.last.DO.length : Int) then
      (card.last.DO.getD op.index.toNat false) != (decide (op.value ≠ 0))
    else true
  | .AO =>
    if 0 ≤ op.index ∧ op.index < (card.last.AO.length : Int) then
      (card.last.AO.getD op.index.toNat 0) != op.value
    else true
  | .AOType =>
    if 0 ≤ op.index ∧ op.index < (card.last.AOType.length : Int) then
      (card.last.AOType.getD op.index.toNat "") != op.mode
    else true

/-- The `switch op.Type` computing maxIndex in ProcessBatchWrite's
validation loop. -/
def opMaxIndex (op : WriteOperation) (spec : ModelSpec) : Int :=
  match op.type with
  | .DO => spec.DO
  | .AO => spec.AO
  | .AOType => spec.AO

/-- The validation pass of ProcessBatchWrite, per operation: `none` means the
op survives (pending); `some (status, message)` is its early result. -/
def validateOp (cards : List Card) (op : WriteOperation) : Option (String × String) :=
  match getCard cards op.cardID with
  | none => some ("error", "card not found")
  | some card =>
    if op.index < 0 ∨ opMaxIndex op (modelTableGet card.module) ≤ op.index then
      some ("error", "index out of range")
    else if shouldWrite op card = false then some ("ok", "value unchanged, skipped")
    else none

/-- One step of GroupWriteOperations: append the op to its (cardID, type)
group, or start a new group. The Go code keys a map by
`fmt.Sprintf("%s:%d", CardID, Type)`, which identifies exactly the pair;
the embedding fixes first-occurrence group order (Go map order is random,
and no proved statement depends on the order across groups). -/
def addOpToGroups (groups : List WriteGroup) (op : WriteOperation) : List WriteGroup :=
  if groups.any (fun g => g.cardID == op.cardID && g.registerType == op.type) then
    groups.map (fun g =>
      if g.cardID == op.cardID && g.registerType == op.type then
        { g with operations := g.operations ++ [op] }
      else g)
  else
    groups ++ [{ cardID := op.cardID, registerType := op.type, operations := [op] }]

/-- GroupWriteOperations from part_001. -/
def GroupWriteOperations (ops : List WriteOperation) : List WriteGroup :=
  ops.foldl addOpToGroups []

/-- The min-index loop shared by processBatchDO/processBatchAO. -/
def opsMinIdx (ops : List WriteOperation) (d : Int) : Int :=
  ops.foldl (fun m op => if op.index < m then op.index else m) d

/-- The max-index loop shared by processBatchDO/processBatchAO. -/
def opsMaxIdx (ops : List WriteOperation) (d : Int) : Int :=
  ops.foldl (fun m op => if m < op.index then op.index else m) d

/-- The window initialization loop of processBatchDO: cached DO values over
`[minIdx, minIdx+count)`, false past the cache. -/
def doInitWindow (cached : List Bool) (minIdx : Int) (count : Nat) : List Bool :=
  (List.range count).map (fun (i : Nat) =>
    if minIdx + (i : Int) < (cached.length : Int) then
      cached.getD (minIdx + (i : Int)).toNat false
    else false)

/-- The overlay loop of processBatchDO: write each op's boolean at its
window offset. -/
def overlayDO (ops : List WriteOperation) (minIdx : Int) (init : List Bool) : List Bool :=
  ops.foldl (fun vs op => vs.set (op.index - minIdx).toNat (decide (op.value ≠ 0))) init

/-- processBatchDO from part_001: one coalesced WriteMultipleCoils over the
[min,max] window, gaps filled from the cached DO; all ops share the frame's
result. -/
def processBatchDO (busErr : Frame → Option String) (card : Card)
    (ops : List WriteOperation) : List CommandResult × List Frame :=
  match ops with
  | [] => ([], [])
  | op0 :: _ =>
    let minIdx := opsMinIdx ops op0.index
    let maxIdx := opsMaxIdx ops op0.index
    let count := (maxIdx - minIdx + 1).toNat
    let values := overlayDO ops minIdx (doInitWindow card.last.DO minIdx count)
    let frame := writeMultipleDO card.slaveID minIdx.toNat values
    let err := busErr frame
    ((List.range ops.length).map (fun i =>
      match err with
      | some e => { index := i, status := "error", message := e }
      | none => { index := i, status := "ok" }), [frame])

/-- The window initialization loop of processBatchAO (float channels). -/
def aoInitWindow (cached : List ℚ) (minIdx : Int) (count : Nat) : List ℚ :=
  (List.range count).map (fun (i : Nat) =>
    if minIdx + (i : Int) < (cached.length : Int) then
      cached.getD (minIdx + (i : Int)).toNat 0
    else 0)

/-- The overlay loop of processBatchAO. -/
def overlayAO (ops : List WriteOperation) (minIdx : Int) (init : List ℚ) : List ℚ :=
  ops.foldl (fun vs op => vs.set (op.index - minIdx).toNat op.value) init

/-- processBatchAO from part_001: same window strategy over float channels,
one WriteMultipleRegisters at `minIdx*2`. -/
def processBatchAO (busErr : Frame → Option String) (card : Card)
    (ops : List WriteOperation) : List CommandResult × List Frame :=
  match ops with
  | [] => ([], [])
  | op0 :: _ =>
    let minIdx := opsMinIdx ops op0.index
    let maxIdx := opsMaxIdx ops op0.index
    let count := (maxIdx - minIdx + 1).toNat
    let values := overlayAO ops minIdx (aoInitWindow card.last.AO minIdx count)
    let frame := writeMultipleAO card.slaveID minIdx.toNat values
    let err := busErr frame
    ((List.range ops.length).map (fun i =>
      match err with
      | some e => { index := i, status := "error", message := e }
      | none => { index := i, status := "ok" }), [frame])

/-- writeAOType from port.go: one WriteSingleRegister at 0x0190+index;
"0-10V" writes 0x0001, every other mode writes 0x0004. -/
def writeAOTypeFrame (slave : Nat) (index : Int) (mode : String) : Frame :=
  Frame.wsReg slave (400 + index).toNat (if mode == "0-10V" then 1 else 4)

/-- processBatchAOType from part_001: AO-type writes are issued one register
at a time, never coalesced. -/
def processBatchAOType (busErr : Frame → Option String) (card : Card)
    (ops : List WriteOperation) : List CommandResult × List Frame :=
  ((ops.enum).map (fun (p : Nat × WriteOperation) =>
    match busErr (writeAOTypeFrame card.slaveID p.2.index p.2.mode) with
    | some e => { index := p.1, status := "error", message := e }
    | none => { index := p.1, status := "ok" }),
   ops.map (fun op => writeAOTypeFrame card.slaveID op.index op.mode))

/-- processWriteGroup from part_001. -/
def processWriteGroup (cards : List Card) (portErr : String → Option String)
    (busErr : Frame → Option String) (group : WriteGroup) :
    List CommandResult × List Frame :=
  match getCard cards group.cardID with
  | none =>
    ((List.range group.operations.length).map
      (fun i => { index := i, status := "error", message := "card not found" }), [])
  | some card =>
    match portErr card.portPath with
    | some e =>
      ((List.range group.operations.length).map
        (fun i => { index := i, status := "error",
                    message := "failed to get port: " ++ e }), [])
    | none =>
      match group.registerType with
      | .DO => processBatchDO busErr card group.operations
      | .AO => processBatchAO busErr card group.operations
      | .AOType => processBatchAOType busErr card group.operations

/-- The group-result mapping loop of ProcessBatchWrite: for each op of the
group, find the FIRST valid op with the same (cardID, type, index) — this
first-match lookup is what loses duplicate operations — and store the group
result at the corresponding original position. -/
def mapGroupStep (validOps : List WriteOperation) (validToOrig : List Nat)
    (gres : List CommandResult) (results : List CommandResult)
    (p : Nat × WriteOperation) : List CommandResult :=
  if gres.length ≤ p.1 then results
  else
    match validOps.findIdx? (fun v =>
        v.cardID == p.2.cardID && v.type == p.2.type && v.index == p.2.index) with
    | none => results
    | some k =>
      if k < validToOrig.length then
        results.set (validToOrig.getD k 0)
          { gres.getD p.1 default with index := validToOrig.getD k 0 }
      else results

def mapGroupResults (validOps : List WriteOperation) (validToOrig : List Nat)
    (gops : List WriteOperation) (gres : List CommandResult)
    (results : List CommandResult) : List CommandResult :=
  (gops.enum).foldl (mapGroupStep validOps validToOrig gres) results

/-- ProcessBatchWrite from part_001: validate, elide no-ops, group, process
groups, and map group results back to original positions. Returns the
result array and the frames put on the bus. -/
def ProcessBatchWrite (cards : List Card) (portErr : String → Option String)
    (busErr : Frame → Option String) (ops : List WriteOperation) :
    List CommandResult × List Frame :=
  let results := (ops.enum).map (fun (p : Nat × WriteOperation) =>
    match validateOp cards p.2 with
    | some sm => { index := p.1, status := sm.1, message := sm.2 }
    | none => (default : CommandResult))
  let validPairs := (ops.enum).filter
    (fun (p : Nat × WriteOperation) => validateOp cards p.2 = none)
  let validOps := validPairs.map (fun p => p.2)
  let validToOrig := validPairs.map (fun p => p.1)
  if validOps.isEmpty then (results, [])
  else
    let groups := GroupWriteOperations validOps
    groups.foldl (fun (acc : List CommandResult × List Frame) group =>
      let gr := processWriteGroup cards portErr busErr group
      (mapGroupResults validOps validToOrig group.operations gr.1 acc.1,
       acc.2 ++ gr.2)) (results, [])

def cardIO4040 : Card :=
  { id := "1", portPath := "/dev/ttyS7", slaveID := 1, module := "IO4040",
    last := { DI := [false, false, false, false], DO := [false, false, false, false] } }



def cardIO4040b : Card :=
  { id := "1", portPath := "/dev/ttyS7", slaveID := 1, module := "IO4040",
    last := { DO := [true, false, false, false] } }


def cardIO4040c : Card :=
  { id := "1", portPath := "/dev/ttyS7", slaveID := 1, module := "IO4040",
    last := { DO := [false, true, false, false] } }



/-- Start address of a write frame. -/
def frameAddr : Frame → Nat
  | .wmCoils _ addr _ _ => addr
  | .wmRegs _ addr _ _ => addr
  | .wsReg _ addr _ => addr

/-- Quantity of a write frame (coils / registers; 1 for a single register). -/
def frameQty : Frame → Nat
  | .wmCoils _ _ qty _ => qty
  | .wmRegs _ _ qty _ => qty
  | .wsReg _ _ _ => 1

/-- Coil `i` (relative to the frame's start address) of a coil frame payload. -/
def framePayloadBit (f : Frame) (i : Nat) : Bool :=
  match f with
  | .wmCoils _ _ _ payload => coilBit payload i
  | _ => false

theorem getD_set_if {α : Type} (l : List α) (i : Nat) (v : α) (j : Nat) (d : α) :
    (l.set i v).getD j d = if i = j ∧ i < l.length then v else l.getD j d := by
  by_cases hj : j < l.length
  · rw [List.getD_eq_getElem _ _ (by simpa using hj), List.getD_eq_getElem _ _ hj]
    by_cases hij : i = j
    · subst hij
      simp [List.getElem_set_self, hj]
    · rw [List.getElem_set_ne hij]
      simp [hij]
  · have h1 : l.length ≤ j := by omega
    rw [List.getD_eq_default _ _ (by simpa using h1), List.getD_eq_default _ _ h1]
    have h2 : ¬ (i = j ∧ i < l.length) := by rintro ⟨rfl, h⟩; omega
    simp [h2]

theorem validateOp_do_pending (cards : List Card) (card : Card) (cardID : String)
    (n : Nat) (v : ℚ)
    (hcard : getCard cards cardID = some card)
    (hn : n < (modelTableGet card.module).DO)
    (hlen : card.last.DO.length = (modelTableGet card.module).DO)
    (hs : card.last.DO.getD n false ≠ decide (v ≠ 0)) :
    validateOp cards { cardID := cardID, type := .DO, index := (n : Int), value := v } =
      none := by
  have htn : ((n : Int)).toNat = n := by omega
  have hsw : shouldWrite { cardID := cardID, type := .DO, index := (n : Int), value := v }
      card = true := by
    simp only [shouldWrite]
    rw [if_pos (by omega), htn]
    simpa [bne_iff_ne] using hs
  simp only [validateOp, opMaxIndex, hcard]
  rw [if_neg (by omega), if_neg (by simp [hsw])]

theorem GroupWriteOperations_two_same (opA opB : WriteOperation)
    (hc : opB.cardID = opA.cardID) (ht : opB.type = opA.type) :
    GroupWriteOperations [opA, opB] =
      [{ cardID := opA.cardID, registerType := opA.type, operations := [opA, opB] }] := by
  simp [GroupWriteOperations, addOpToGroups, hc, ht]

/-- The window of booleans processBatchDO sends for two surviving ops at
`a < b`: cached values over `[a,b]`, overlaid with the two written values. -/
def doWindow (cached : List Bool) (a b : Nat) (va vb : ℚ) : List Bool :=
  ((doInitWindow cached (a : Int) (b - a + 1)).set 0 (decide (va ≠ 0))).set
    (b - a) (decide (vb ≠ 0))

theorem doInitWindow_length (cached : List Bool) (minIdx : Int) (count : Nat) :
    (doInitWindow cached minIdx count).length = count := by
  simp [doInitWindow]

theorem doWindow_length (cached : List Bool) (a b : Nat) (va vb : ℚ) :
    (doWindow cached a b va vb).length = b - a + 1 := by
  simp [doWindow, doInitWindow_length]

theorem processBatchDO_two (busErr : Frame → Option String) (card : Card)
    (cardID : String) (a b : Nat) (va vb : ℚ) (hab : a < b) :
    (processBatchDO busErr card
      [{ cardID := cardID, type := .DO, index := (a : Int), value := va },
       { cardID := cardID, type := .DO, index := (b : Int), value := vb }]).2 =
    [Frame.wmCoils card.slaveID a (b - a + 1)
      (packBits (doWindow card.last.DO a b va vb))] := by
  have hab' : ((a : Int) < (b : Int)) := by exact_mod_cast hab
  have hmin : opsMinIdx
      [{ cardID := cardID, type := .DO, index := (a : Int), value := va, mode := "" },
       { cardID := cardID, type := .DO, index := (b : Int), value := vb, mode := "" }]
      (a : Int) = (a : Int) := by
    simp only [opsMinIdx, List.foldl_cons, List.foldl_nil]
    rw [if_neg (lt_irrefl _), if_neg (not_lt.mpr (le_of_lt hab'))]
  have hmax : opsMaxIdx
      [{ cardID := cardID, type := .DO, index := (a : Int), value := va, mode := "" },
       { cardID := cardID, type := .DO, index := (b : Int), value := vb, mode := "" }]
      (a : Int) = (b : Int) := by
    simp only [opsMaxIdx, List.foldl_cons, List.foldl_nil]
    rw [if_neg (lt_irrefl _), if_pos hab']
  simp only [processBatchDO, hmin, hmax]
  have hcount : ((b : Int) - (a : Int) + 1).toNat = b - a + 1 := by omega
  have hzero : ((a : Int) - (a : Int)).toNat = 0 := by omega
  have hba : ((b : Int) - (a : Int)).toNat = b - a := by omega
  have haton : ((a : Int)).toNat = a := by omega
  rw [hcount, haton]
  simp only [overlayDO, List.foldl_cons, List.foldl_nil, hzero, hba]
  unfold writeMultipleDO doWindow
  rw [List.length_set, List.length_set, doInitWindow_length]

theorem doInitWindow_getD (cached : List Bool) (minIdx : Int) (count i : Nat)
    (hi : i < count) :
    (doInitWindow cached minIdx count).getD i false =
      if minIdx + (i : Int) < (cached.length : Int) then
        cached.getD (minIdx + (i : Int)).toNat false
      else false := by
  rw [List.getD_eq_getElem _ _ (by simpa [doInitWindow_length] using hi)]
  simp [doInitWindow]

/-- C3 (amended): for a processBatchWrite call consisting of two DO writes on
the same card at indices `a < b`, both surviving validation and no-op
elision, exactly one WriteMultipleCoils frame is emitted; it covers exactly
the window [a,b], carries the two written booleans at offsets 0 and `b-a`,
and fills every other offset from the card's cached DO values. -/
theorem coalesced_do_window (cards : List Card) (card : Card)
    (portErr : String → Option String) (busErr : Frame → Option String)
    (cardID : String) (a b : Nat) (va vb : ℚ)
    (hcard : getCard cards cardID = some card)
    (hport : portErr card.portPath = none)
    (hab : a < b)
    (hb : b < (modelTableGet card.module).DO)
    (hlen : card.last.DO.length = (modelTableGet card.module).DO)
    (hsa : card.last.DO.getD a false ≠ decide (va ≠ 0))
    (hsb : card.last.DO.getD b false ≠ decide (vb ≠ 0)) :
    ((ProcessBatchWrite cards portErr busErr
        [{ cardID := cardID, type := .DO, index := (a : Int), value := va },
         { cardID := cardID, type := .DO, index := (b : Int), value := vb }]).2).length = 1 ∧
    ∀ f ∈ (ProcessBatchWrite cards portErr busErr
        [{ cardID := cardID, type := .DO, index := (a : Int), value := va },
         { cardID := cardID, type := .DO, index := (b : Int), value := vb }]).2,
      Frame.isWMCoils f = true ∧ frameAddr f = a ∧ frameQty f = b - a + 1 ∧
      ∀ j, a ≤ j → j ≤ b →
        framePayloadBit f (j - a) =
          (if j = a then decide (va ≠ 0) else if j = b then decide (vb ≠ 0)
           else card.last.DO.getD j false) := by
  have hva := validateOp_do_pending cards card cardID a va hcard (lt_trans hab hb) hlen hsa
  have hvb := validateOp_do_pending cards card cardID b vb hcard hb hlen hsb
  have hpg : processWriteGroup cards portErr busErr
      { cardID := cardID, registerType := .DO,
        operations :=
          [{ cardID := cardID, type := .DO, index := (a : Int), value := va },
           { cardID := cardID, type := .DO, index := (b : Int), value := vb }] } =
      processBatchDO busErr card
        [{ cardID := cardID, type := .DO, index := (a : Int), value := va },
         { cardID := cardID, type := .DO, index := (b : Int), value := vb }] := by
    simp only [processWriteGroup, hcard, hport]
  have hfr : (ProcessBatchWrite cards portErr busErr
      [{ cardID := cardID, type := .DO, index := (a : Int), value := va },
       { cardID := cardID, type := .DO, index := (b : Int), value := vb }]).2 =
      [Frame.wmCoils card.slaveID a (b - a + 1)
        (packBits (doWindow card.last.DO a b va vb))] := by
    have hgw := GroupWriteOperations_two_same
      { cardID := cardID, type := .DO, index := (a : Int), value := va, mode := "" }
      { cardID := cardID, type := .DO, index := (b : Int), value := vb, mode := "" } rfl rfl
    simp only [ProcessBatchWrite, List.enum, List.enumFrom, List.filter_cons,
      List.filter_nil, hva, hvb, decide_eq_true_eq, if_true, List.map_cons,
      List.map_nil, List.isEmpty_cons, Bool.false_eq_true, if_false]
    rw [hgw]
    simp only [List.foldl_cons, List.foldl_nil, hpg, List.nil_append]
    exact processBatchDO_two busErr card cardID a b va vb hab
  refine ⟨by rw [hfr]; rfl, ?_⟩
  intro f hf
  rw [hfr, List.mem_singleton] at hf
  subst hf
  refine ⟨rfl, rfl, rfl, ?_⟩
  intro j hja hjb
  have hWlen : ((doInitWindow card.last.DO (a : Int) (b - a + 1)).set 0
      (decide (va ≠ 0))).length = b - a + 1 := by
    rw [List.length_set, doInitWindow_length]
  show coilBit (packBits (doWindow card.last.DO a b va vb)) (j - a) = _
  rw [packBits_coilBit]
  unfold doWindow
  rw [getD_set_if, hWlen]
  by_cases hjb2 : j = b
  · subst hjb2
    rw [if_pos ⟨rfl, by omega⟩, if_neg (by omega), if_pos rfl]
  · rw [if_neg (by rintro ⟨h1, _⟩; omega)]
    rw [getD_set_if, doInitWindow_length]
    by_cases hja2 : j = a
    · subst hja2
      rw [if_pos ⟨by omega, by omega⟩, if_pos rfl]
    · rw [if_neg (by rintro ⟨h1, _⟩; omega)]
      rw [doInitWindow_getD _ _ _ _ (by omega)]
      have hcast : (a : Int) + ((j - a : Nat) : Int) = (j : Int) := by omega
      have hjt : ((j : Int)).toNat = j := by omega
      rw [hcast, hjt, if_pos (by omega), if_neg hja2, if_neg hjb2]

theorem validateOp_skipped (cards : List Card) (card : Card) (op : WriteOperation)
    (hcard : getCard cards op.cardID = some card)
    (h0 : 0 ≤ op.index)
    (hmax : op.index < opMaxIndex op (modelTableGet card.module))
    (hnochange : shouldWrite op card = false) :
    validateOp cards op = some ("ok", "value unchanged, skipped") := by
  simp only [validateOp, hcard]
  rw [if_neg (by omega), if_pos hnochange]

theorem mapGroupStep_getD_preserve (validOps : List WriteOperation)
    (validToOrig : List Nat) (gres : List CommandResult)
    (results : List CommandResult) (p : Nat × WriteOperation) (j : Nat)
    (hj : j ∉ validToOrig) :
    (mapGroupStep validOps validToOrig gres results p).getD j default =
      results.getD j default := by
  unfold mapGroupStep
  split
  · rfl
  · split
    · rfl
    · next k hk =>
      split
      · next hklen =>
        rw [getD_set_if]
        rw [if_neg ?_]
        rintro ⟨h1, _⟩
        apply hj
        rw [← h1, List.getD_eq_getElem _ _ hklen]
        exact List.getElem_mem hklen
      · rfl

theorem mapGroupResults_getD_preserve (validOps : List WriteOperation)
    (validToOrig : List Nat) (gops : List WriteOperation)
    (gres : List CommandResult) (results : List CommandResult) (j : Nat)
    (hj : j ∉ validToOrig) :
    (mapGroupResults validOps validToOrig gops gres results).getD j default =
      results.getD j default := by
  unfold mapGroupResults
  generalize gops.enum = l
  induction l generalizing results with
  | nil => rfl
  | cons p t ih =>
    rw [List.foldl_cons, ih, mapGroupStep_getD_preserve _ _ _ _ _ _ hj]

theorem foldl_groups_results_getD (groups : List WriteGroup) (cards : List Card)
    (portErr : String → Option String) (busErr : Frame → Option String)
    (validOps : List WriteOperation) (validToOrig : List Nat)
    (r : List CommandResult) (fs : List Frame) (j : Nat)
    (hj : j ∉ validToOrig) :
    ((groups.foldl (fun (acc : List CommandResult × List Frame) group =>
        (mapGroupResults validOps validToOrig group.operations
          (processWriteGroup cards portErr busErr group).1 acc.1,
         acc.2 ++ (processWriteGroup cards portErr busErr group).2)) (r, fs)).1).getD
      j default = r.getD j default := by
  induction groups generalizing r fs with
  | nil => rfl
  | cons g t ih =>
    rw [List.foldl_cons, ih, mapGroupResults_getD_preserve _ _ _ _ _ _ hj]

theorem foldl_groups_frames (groups : List WriteGroup) (cards : List Card)
    (portErr : String → Option String) (busErr : Frame → Option String)
    (validOps : List WriteOperation) (validToOrig : List Nat)
    (r : List CommandResult) (fs : List Frame) :
    (groups.foldl (fun (acc : List CommandResult × List Frame) group =>
        (mapGroupResults validOps validToOrig group.operations
          (processWriteGroup cards portErr busErr group).1 acc.1,
         acc.2 ++ (processWriteGroup cards portErr busErr group).2)) (r, fs)).2 =
      fs ++ groups.flatMap (fun g => (processWriteGroup cards portErr busErr g).2) := by
  induction groups generalizing r fs with
  | nil => simp
  | cons g t ih =>
    rw [List.foldl_cons, ih, List.flatMap_cons, List.append_assoc]

theorem enumFrom_filter_validate_map_snd (cards : List Card)
    (l : List WriteOperation) (n : Nat) :
    ((List.enumFrom n l).filter
        (fun (p : Nat × WriteOperation) => validateOp cards p.2 = none)).map
        (fun p => p.2) =
      l.filter (fun op => validateOp cards op = none) := by
  induction l generalizing n with
  | nil => rfl
  | cons a t ih =>
    rw [List.enumFrom_cons, List.filter_cons, List.filter_cons]
    by_cases hq : validateOp cards a = none
    · simp only [hq]
      simp [ih]
    · simp only [hq]
      simp [ih, hq]

theorem ProcessBatchWrite_results_getD (cards : List Card)
    (portErr : String → Option String) (busErr : Frame → Option String)
    (ops : List WriteOperation) (j : Nat)
    (hj : j ∉ ((ops.enum).filter
      (fun (p : Nat × WriteOperation) => validateOp cards p.2 = none)).map
      (fun p => p.1)) :
    (ProcessBatchWrite cards portErr busErr ops).1.getD j default =
      ((ops.enum).map (fun (p : Nat × WriteOperation) =>
        match validateOp cards p.2 with
        | some sm => { index := p.1, status := sm.1, message := sm.2 }
        | none => (default : CommandResult))).getD j default := by
  simp only [ProcessBatchWrite]
  split
  · rfl
  · exact foldl_groups_results_getD _ _ _ _ _ _ _ _ _ hj

theorem ProcessBatchWrite_frames (cards : List Card)
    (portErr : String → Option String) (busErr : Frame → Option String)
    (ops : List WriteOperation) :
    (ProcessBatchWrite cards portErr busErr ops).2 =
      (if (ops.filter (fun op => validateOp cards op = none)).isEmpty then
        ([] : List Frame)
      else
        (GroupWriteOperations (ops.filter (fun op => validateOp cards op = none))).flatMap
          (fun g => (processWriteGroup cards portErr busErr g).2)) := by
  have he : ((ops.enum).filter
      (fun (p : Nat × WriteOperation) => validateOp cards p.2 = none)).map
      (fun p => p.2) = ops.filter (fun op => validateOp cards op = none) := by
    rw [List.enum]
    exact enumFrom_filter_validate_map_snd cards ops 0
  simp only [ProcessBatchWrite, he]
  split
  · rfl
  · rw [foldl_groups_frames]
    simp

/-- C5 (amended): an operation whose value equals the card's cached value for
its channel gets result status "ok" (message "value unchanged, skipped") and
contributes nothing to the bus: the frames of the call are exactly the frames
of the same call without that operation. (A window frame created by *other*
changed operations on the same card and kind may still cover the skipped
index, which is what the counterexample exhibits.) -/
theorem noop_elision (cards : List Card) (card : Card)
    (portErr : String → Option String) (busErr : Frame → Option String)
    (pre post : List WriteOperation) (op : WriteOperation)
    (hcard : getCard cards op.cardID = some card)
    (h0 : 0 ≤ op.index)
    (hmax : op.index < opMaxIndex op (modelTableGet card.module))
    (hnochange : shouldWrite op card = false) :
    ((ProcessBatchWrite cards portErr busErr (pre ++ op :: post)).1.getD pre.length
        default).status = "ok" ∧
    ((ProcessBatchWrite cards portErr busErr (pre ++ op :: post)).1.getD pre.length
        default).message = "value unchanged, skipped" ∧
    (ProcessBatchWrite cards portErr busErr (pre ++ op :: post)).2 =
      (ProcessBatchWrite cards portErr busErr (pre ++ post)).2 := by
  have hskip := validateOp_skipped cards card op hcard h0 hmax hnochange
  have hget : (pre ++ op :: post)[pre.length]? = some op := by
    rw [List.getElem?_append_right (le_refl _)]
    simp
  have hnotmem : pre.length ∉ (((pre ++ op :: post).enum).filter
      (fun (p : Nat × WriteOperation) => validateOp cards p.2 = none)).map
      (fun p => p.1) := by
    intro hmem
    obtain ⟨p, hp, hp1⟩ := List.mem_map.mp hmem
    have h1 := List.mem_filter.mp hp
    have h2 : (pre ++ op :: post)[p.1]? = some p.2 :=
      List.mem_enum_iff_getElem?.mp h1.1
    have h3 : validateOp cards p.2 = none := by simpa using h1.2
    rw [hp1, hget] at h2
    rw [← Option.some_inj.mp h2, hskip] at h3
    exact Option.noConfusion h3
  have hlen : pre.length < (pre ++ op :: post).length := by simp
  have hentry : (ProcessBatchWrite cards portErr busErr (pre ++ op :: post)).1.getD
      pre.length default =
      { index := pre.length, status := "ok", message := "value unchanged, skipped" } := by
    rw [ProcessBatchWrite_results_getD cards portErr busErr _ _ hnotmem]
    rw [List.getD_eq_getElem _ _ (by simp)]
    have hgo : (pre ++ op :: post)[pre.length] = op := by
      have h1 := List.getElem?_eq_getElem hlen
      rw [hget] at h1
      exact (Option.some_inj.mp h1).symm
    simp only [List.getElem_map, List.getElem_enum, hgo, hskip]
  have hfil : (pre ++ op :: post).filter (fun o => validateOp cards o = none) =
      (pre ++ post).filter (fun o => validateOp cards o = none) := by
    rw [List.filter_append, List.filter_append, List.filter_cons]
    simp [hskip]
  refine ⟨by rw [hentry], by rw [hentry], ?_⟩
  rw [ProcessBatchWrite_frames, ProcessBatchWrite_frames, hfil]

/-- C3 witness: the theorem applied to an IO4040 card with all-false cached
DO and ops writeDO(0,true), writeDO(3,true). -/
theorem coalesced_do_window_witness :
    getCard [cardIO4040] "1" = some cardIO4040 ∧
    ((ProcessBatchWrite [cardIO4040] pnone bnone
        [{ cardID := "1", type := .DO, index := (0 : Int), value := 1 },
         { cardID := "1", type := .DO, index := (3 : Int), value := 1 }]).2).length = 1 :=
  ⟨by decide,
    (coalesced_do_window [cardIO4040] cardIO4040 pnone bnone "1" 0 3 1 1 (by decide) rfl
      (by decide) (by decide) (by decide) (by decide) (by decide)).1⟩

/-- C3 counterexample: same two ops writeDO(0,true), writeDO(3,true), but the
cache already holds DO[0]=true, so the first op is elided as a no-op and the
single emitted WriteMultipleCoils is at address 3 with quantity 1 — it does
not cover the window [0,3] the claim asserts. -/
theorem coalesced_do_window_cex :
    (ProcessBatchWrite [cardIO4040b] pnone bnone
        [{ cardID := "1", type := .DO, index := 0, value := 1 },
         { cardID := "1", type := .DO, index := 3, value := 1 }]).2 =
      [Frame.wmCoils 1 3 1 [1]] ∧
    ∀ f ∈ (ProcessBatchWrite [cardIO4040b] pnone bnone
        [{ cardID := "1", type := .DO, index := 0, value := 1 },
         { cardID := "1", type := .DO, index := 3, value := 1 }]).2,
      ¬ (frameAddr f = 0 ∧ frameQty f = 4) := by
  decide

/-- C4 (code-bug evidence): two identical DO ops for the same card, kind, and
index. The result array has length 2, but the group-result mapping finds
only the first matching valid op, so results[1] is left as the zero value
CommandResult: its index is 0, not 1, and its status is empty (neither "ok"
nor "error"). -/
theorem batch_duplicate_ops_eval :
    ((ProcessBatchWrite [cardIO4040] pnone bnone
        [{ cardID := "1", type := .DO, index := 0, value := 1 },
         { cardID := "1", type := .DO, index := 0, value := 1 }]).1).length = 2 ∧
    (ProcessBatchWrite [cardIO4040] pnone bnone
        [{ cardID := "1", type := .DO, index := 0, value := 1 },
         { cardID := "1", type := .DO, index := 0, value := 1 }]).1 =
      [{ index := 0, status := "ok", message := "" },
       { index := 0, status := "", message := "" }] ∧
    ((ProcessBatchWrite [cardIO4040] pnone bnone
        [{ cardID := "1", type := .DO, index := 0, value := 1 },
         { cardID := "1", type := .DO, index := 0, value := 1 }]).1.getD 1
        default).index ≠ 1 := by
  decide

/-- C5 counterexample: op writeDO(1,true) equals the cached DO[1]=true and is
skipped with status "ok", yet the two surviving ops writeDO(0,true) and
writeDO(2,true) force a WriteMultipleCoils window [0,2] that covers coil 1 —
so a bus frame targeting that op's (card, DO, 1) is emitted in the call. -/
theorem noop_elision_cex :
    ((ProcessBatchWrite [cardIO4040c] pnone bnone
        [{ cardID := "1", type := .DO, index := 1, value := 1 },
         { cardID := "1", type := .DO, index := 0, value := 1 },
         { cardID := "1", type := .DO, index := 2, value := 1 }]).1.getD 0 default).status
        = "ok" ∧
    (ProcessBatchWrite [cardIO4040c] pnone bnone
        [{ cardID := "1", type := .DO, index := 1, value := 1 },
         { cardID := "1", type := .DO, index := 0, value := 1 },
         { cardID := "1", type := .DO, index := 2, value := 1 }]).2 =
      [Frame.wmCoils 1 0 3 [7]] ∧
    ∃ f ∈ (ProcessBatchWrite [cardIO4040c] pnone bnone
        [{ cardID := "1", type := .DO, index := 1, value := 1 },
         { cardID := "1", type := .DO, index := 0, value := 1 },
         { cardID := "1", type := .DO, index := 2, value := 1 }]).2,
      Frame.isWMCoils f = true ∧ frameAddr f ≤ 1 ∧ 1 < frameAddr f + frameQty f := by
  decide

/-- C5 witness: the amended theorem applied to a single no-op writeDO(1,true)
against cached DO[1]=true. -/
theorem noop_elision_witness :
    shouldWrite { cardID := "1", type := .DO, index := 1, value := 1 } cardIO4040c = false ∧
    ((ProcessBatchWrite [cardIO4040c] pnone bnone
        [{ cardID := "1", type := .DO, index := 1, value := 1 }]).1.getD 0
        default).status = "ok" :=
  ⟨by decide,
    (noop_elision [cardIO4040c] cardIO4040c pnone bnone [] []
      { cardID := "1", type := .DO, index := 1, value := 1 } (by decide) (by decide)
      (by decide) (by decide)).1⟩

/-! ## Card reader (port.go: readCard, readSerialNumber, readBaudRate) and
manager lifecycle (part_001: AddCard, RebootCard, ReadAllAndProcessWrites,
QueueWriteAOType) -/

/-- Big-endian 16-bit word at byte offset `off` (binary.BigEndian.Uint16). -/
def be16 (raw : List Nat) (off : Nat) : Nat :=
  (raw.getD off 0) * 256 + raw.getD (off + 1) 0

/-- Big-endian 32-bit word at byte offset `off` (binary.BigEndian.Uint32). -/
def be32 (raw : List Nat) (off : Nat) : Nat :=
  (raw.getD off 0) * 16777216 + (raw.getD (off + 1) 0) * 65536 +
    (raw.getD (off + 2) 0) * 256 + raw.getD (off + 3) 0

/-- One uppercase hex digit (for the `%04X` AO-type fallback). -/
def hexDigit (n : Nat) : Char :=
  if n < 10 then Char.ofNat (48 + n) else Char.ofNat (55 + n)

/-- Four uppercase hex digits, as in Go's `%04X` for a uint16. -/
def hex4 (n : Nat) : String :=
  String.mk [hexDigit (n / 4096 % 16), hexDigit (n / 256 % 16),
    hexDigit (n / 16 % 16), hexDigit (n % 16)]

/-- The AO-type decode loop of readCard: 0x0001 is "0-10V", 0x0004 is
"4-20mA", anything else becomes the raw hex string. -/
def decodeAOTypes (raw : List Nat) (n : Nat) : List String :=
  (List.range n).map (fun i =>
    if be16 raw (i * 2) = 1 then "0-10V"
    else if be16 raw (i * 2) = 4 then "4-20mA"
    else "0x" ++ hex4 (be16 raw (i * 2)))

/-- The float-channel decode loop of readCard: each channel is the abstract
float decode (`math.Float32frombits`) of a big-endian 32-bit word. -/
def decodeFloats (fdec : Nat → ℚ) (raw : List Nat) (n : Nat) : List ℚ :=
  (List.range n).map (fun i => fdec (be32 raw (i * 4)))

/-- readSerialNumber from port.go: 10 holding registers at 0x0070; empty
string on failure or short reply; ASCII truncated at the first NUL. -/
def readSerialNumber (bus : ReadReq → Except String (List Nat)) (slave : Nat) :
    String × List ReadReq :=
  let req := ReadReq.holdingRegs slave 112 10
  match bus req with
  | .error _ => ("", [req])
  | .ok raw =>
    if raw.length < 20 then ("", [req])
    else (String.mk (((raw.take 20).takeWhile (fun b => b ≠ 0)).map Char.ofNat), [req])

/-- readBaudRate from port.go: 2 holding registers at 0x0020; 0 on failure. -/
def readBaudRate (bus : ReadReq → Except String (List Nat)) (slave : Nat) :
    Nat × List ReadReq :=
  let req := ReadReq.holdingRegs slave 32 2
  match bus req with
  | .error _ => (0, [req])
  | .ok raw => if raw.length < 4 then (0, [req]) else (be32 raw 0, [req])

/-- The tail of readCard under `if readAll`: serial number and baud rate;
their failures are tolerated (empty string / zero). -/
def readCardFull (bus : ReadReq → Except String (List Nat)) (slave : Nat)
    (readAll : Bool) (state : CardState) (reqs : List ReadReq) :
    CardState × Option String × List ReadReq :=
  if readAll then
    let sn := readSerialNumber bus slave
    let baud := readBaudRate bus slave
    ({ state with serialNumber := sn.1, baudRate := baud.1 }, none, reqs ++ sn.2 ++ baud.2)
  else (state, none, reqs)

/-- The AO block of readCard: holding registers at 0, plus (under readAll)
the AO-type region at 0x0190 whose failure is tolerated. -/
def readCardAO (bus : ReadReq → Except String (List Nat)) (fdec : Nat → ℚ)
    (slave : Nat) (spec : ModelSpec) (readAll : Bool) (state : CardState)
    (reqs : List ReadReq) : CardState × Option String × List ReadReq :=
  if 0 < spec.AO then
    let req := ReadReq.holdingRegs slave 0 (spec.AO * 2)
    match bus req with
    | .error e => ({ state with error := "AO read error: " ++ e }, some e, reqs ++ [req])
    | .ok raw =>
      if readAll then
        let treq := ReadReq.holdingRegs slave 400 spec.AO
        match bus treq with
        | .ok traw =>
          readCardFull bus slave readAll
            { state with AO := decodeFloats fdec raw spec.AO,
                         AOType := decodeAOTypes traw spec.AO } (reqs ++ [req, treq])
        | .error _ =>
          readCardFull bus slave readAll
            { state with AO := decodeFloats fdec raw spec.AO } (reqs ++ [req, treq])
      else
        readCardFull bus slave readAll
          { state with AO := decodeFloats fdec raw spec.AO } (reqs ++ [req])
  else readCardFull bus slave readAll state reqs

/-- The AI block of readCard: input registers at 0. -/
def readCardAI (bus : ReadReq → Except String (List Nat)) (fdec : Nat → ℚ)
    (slave : Nat) (spec : ModelSpec) (readAll : Bool) (state : CardState)
    (reqs : List ReadReq) : CardState × Option String × List ReadReq :=
  if 0 < spec.AI then
    let req := ReadReq.inputRegs slave 0 (spec.AI * 2)
    match bus req with
    | .error e => ({ state with error := "AI read error: " ++ e }, some e, reqs ++ [req])
    | .ok raw =>
      readCardAO bus fdec slave spec readAll
        { state with AI := decodeFloats fdec raw spec.AI } (reqs ++ [req])
  else readCardAO bus fdec slave spec readAll state reqs

/-- The DO block of readCard: coils at 0. -/
def readCardDO (bus : ReadReq → Except String (List Nat)) (fdec : Nat → ℚ)
    (slave : Nat) (spec : ModelSpec) (readAll : Bool) (state : CardState)
    (reqs : List ReadReq) : CardState × Option String × List ReadReq :=
  if 0 < spec.DO then
    let req := ReadReq.coils slave 0 spec.DO
    match bus req with
    | .error e => ({ state with error := "DO read error: " ++ e }, some e, reqs ++ [req])
    | .ok raw =>
      readCardAI bus fdec slave spec readAll
        { state with DO := unpackBits raw spec.DO } (reqs ++ [req])
  else readCardAI bus fdec slave spec readAll state reqs

/-- readCard from port.go, sequentialized block by block. Returns the state,
the error returned to the caller (the raw bus error; the state's own error
field carries the per-region prefixed message the callers discard), and the
list of read requests issued, in order. Any DI/DO/AI/AO read failure
returns immediately; the AO-type, serial and baud reads never abort. -/
def readCard (bus : ReadReq → Except String (List Nat)) (fdec : Nat → ℚ)
    (now : Nat) (slave : Nat) (spec : ModelSpec) (readAll : Bool) :
    CardState × Option String × List ReadReq :=
  let state : CardState := { timestamp := now }
  if 0 < spec.DI then
    let req := ReadReq.discreteInputs slave 0 spec.DI
    match bus req with
    | .error e => ({ state with error := "DI read error: " ++ e }, some e, [req])
    | .ok raw =>
      readCardDO bus fdec slave spec readAll
        { state with DI := unpackBits raw spec.DI } [req]
  else readCardDO bus fdec slave spec readAll state []

/-- Whether the bus answers a request without error. -/
def busOk (bus : ReadReq → Except String (List Nat)) (r : ReadReq) : Bool :=
  match bus r with
  | .ok _ => true
  | .error _ => false

/-- The registry slice of the Manager guarded by its mutex (part_001). -/
structure ManagerState where
  cards : List Card
  nextID : Nat
deriving DecidableEq, Repr

/-- AddCard from part_001: ensure the port, resolve the module (the probe
result stands in for detectModel when the module argument is empty), insert
the card — with needsFullRead at its Go zero value — then do one full read
whose result populates `last` only on success; the read's error is dropped
and the card is returned with a nil error either way. -/
def AddCard (m : ManagerState) (portPath : String) (slave : Nat)
    (module detected : String) (portErr : String → Option String)
    (bus : ReadReq → Except String (List Nat)) (fdec : Nat → ℚ) (now : Nat) :
    Except String (ManagerState × Card × List ReadReq) :=
  match portErr portPath with
  | some e => .error e
  | none =>
    let module := if module = "" then detected else module
    if module = "" then .error "unable to detect module; specify module explicitly"
    else
      match ModelTable module with
      | none => .error ("unknown module " ++ module)
      | some spec =>
        let c : Card := { id := toString m.nextID, portPath := portPath,
                          slaveID := slave, module := spec.Name }
        let r := readCard bus fdec now slave spec true
        match r.2.1 with
        | none =>
          .ok ({ cards := m.cards ++ [{ c with last := r.1 }], nextID := m.nextID + 1 },
            { c with last := r.1 }, r.2.2)
        | some _ =>
          .ok ({ cards := m.cards ++ [c], nextID := m.nextID + 1 }, c, r.2.2)

/-- RebootCard from part_001: set needsFullRead before the bus write, so the
flag is set even when the reboot frame (0xFF00 to 0x0010) fails. -/
def RebootCard (m : ManagerState) (cardID : String)
    (portErr : String → Option String) (busErr : Frame → Option String) :
    ManagerState × Option String :=
  match getCard m.cards cardID with
  | none => (m, some "card not found")
  | some c =>
    let m2 : ManagerState :=
      { m with cards := m.cards.map (fun x =>
          if x.id == cardID then { x with needsFullRead := true } else x) }
    match portErr c.portPath with
    | some e => (m2, some e)
    | none => (m2, busErr (Frame.wsReg c.slaveID 16 65280))

/-- The per-card body of ReadAllAndProcessWrites (part_001): read the
needsFullRead flag and clear it, read the card, and merge — on error only
`last.error` is touched; on a fast read the previous serial number and AO
types are spliced in. Returns the updated card and the reads issued. -/
def cycleCardStep (portExists : String → Bool)
    (bus : ReadReq → Except String (List Nat)) (fdec : Nat → ℚ) (now : Nat)
    (c : Card) : Card × List ReadReq :=
  if portExists c.portPath then
    let readAll := c.needsFullRead
    let c2 : Card := { c with needsFullRead := false }
    let r := readCard bus fdec now c.slaveID (modelTableGet c.module) readAll
    match r.2.1 with
    | some e => ({ c2 with last := { c2.last with error := e } }, r.2.2)
    | none =>
      if readAll then ({ c2 with last := r.1 }, r.2.2)
      else
        let merged : CardState :=
          { r.1 with serialNumber := c.last.serialNumber, AOType := c.last.AOType }
        ({ c2 with last := merged }, r.2.2)
  else
    ({ c with last := { c.last with error := "port " ++ c.portPath ++ " not found" } }, [])

/-- QueueWriteAOType from part_001: validates card existence and index range
only — the mode string is never checked. -/
def QueueWriteAOType (cards : List Card) (writeQueue : List WriteOperation)
    (cardID : String) (index : Int) (mode : String) :
    Except String (List WriteOperation) :=
  match getCard cards cardID with
  | none => .error "card not found"
  | some c =>
    if index < 0 ∨ ((modelTableGet c.module).AO : Int) ≤ index then
      .error "index out of range"
    else
      .ok (writeQueue ++ [{ cardID := cardID, type := .AOType, index := index, mode := mode }])

theorem readCardFull_err (bus : ReadReq → Except String (List Nat)) (slave : Nat)
    (readAll : Bool) (state : CardState) (reqs : List ReadReq) :
    (readCardFull bus slave readAll state reqs).2.1 = none := by
  unfold readCardFull
  split <;> rfl

theorem readCardFull_error (bus : ReadReq → Except String (List Nat)) (slave : Nat)
    (readAll : Bool) (state : CardState) (reqs : List ReadReq) :
    (readCardFull bus slave readAll state reqs).1.error = state.error := by
  unfold readCardFull
  split <;> rfl

theorem readCardAO_err_iff (bus : ReadReq → Except String (List Nat)) (fdec : Nat → ℚ)
    (slave : Nat) (spec : ModelSpec) (readAll : Bool) (state : CardState)
    (reqs : List ReadReq) :
    (readCardAO bus fdec slave spec readAll state reqs).2.1 = none ↔
      (0 < spec.AO → busOk bus (ReadReq.holdingRegs slave 0 (spec.AO * 2)) = true) := by
  by_cases hao : 0 < spec.AO
  · cases hb : bus (ReadReq.holdingRegs slave 0 (spec.AO * 2)) with
    | error e => simp [readCardAO, hao, hb, busOk]
    | ok raw =>
      by_cases hra : readAll
      · cases hb2 : bus (ReadReq.holdingRegs slave 400 spec.AO) with
        | ok traw => simp [readCardAO, hao, hb, hb2, hra, busOk, readCardFull_err]
        | error e2 => simp [readCardAO, hao, hb, hb2, hra, busOk, readCardFull_err]
      · simp [readCardAO, hao, hb, hra, busOk, readCardFull_err]
  · simp [readCardAO, hao, readCardFull_err]

theorem readCardAI_err_iff (bus : ReadReq → Except String (List Nat)) (fdec : Nat → ℚ)
    (slave : Nat) (spec : ModelSpec) (readAll : Bool) (state : CardState)
    (reqs : List ReadReq) :
    (readCardAI bus fdec slave spec readAll state reqs).2.1 = none ↔
      ((0 < spec.AI → busOk bus (ReadReq.inputRegs slave 0 (spec.AI * 2)) = true) ∧
       (0 < spec.AO → busOk bus (ReadReq.holdingRegs slave 0 (spec.AO * 2)) = true)) := by
  by_cases hai : 0 < spec.AI
  · cases hb : bus (ReadReq.inputRegs slave 0 (spec.AI * 2)) with
    | error e => simp [readCardAI, hai, hb, busOk]
    | ok raw => simp [readCardAI, hai, hb, busOk, readCardAO_err_iff]
  · simp [readCardAI, hai, readCardAO_err_iff]

theorem readCardDO_err_iff (bus : ReadReq → Except String (List Nat)) (fdec : Nat → ℚ)
    (slave : Nat) (spec : ModelSpec) (readAll : Bool) (state : CardState)
    (reqs : List ReadReq) :
    (readCardDO bus fdec slave spec readAll state reqs).2.1 = none ↔
      ((0 < spec.DO → busOk bus (ReadReq.coils slave 0 spec.DO) = true) ∧
       (0 < spec.AI → busOk bus (ReadReq.inputRegs slave 0 (spec.AI * 2)) = true) ∧
       (0 < spec.AO → busOk bus (ReadReq.holdingRegs slave 0 (spec.AO * 2)) = true)) := by
  by_cases hdo : 0 < spec.DO
  · cases hb : bus (ReadReq.coils slave 0 spec.DO) with
    | error e => simp [readCardDO, hdo, hb, busOk]
    | ok raw => simp [readCardDO, hdo, hb, busOk, readCardAI_err_iff]
  · simp [readCardDO, hdo, readCardAI_err_iff]

/-- C6 (amended): readCard succeeds exactly when the DI, DO, AI and AO
sub-reads required by the spec succeed — a failure of any of those four
aborts the call with an error, while failures of the AO-type, serial-number
and baud reads (issued under fullRead) never abort it. -/
theorem readCard_abort_iff (bus : ReadReq → Except String (List Nat)) (fdec : Nat → ℚ)
    (now slave : Nat) (spec : ModelSpec) (readAll : Bool) :
    (readCard bus fdec now slave spec readAll).2.1 = none ↔
      ((0 < spec.DI → busOk bus (ReadReq.discreteInputs slave 0 spec.DI) = true) ∧
       (0 < spec.DO → busOk bus (ReadReq.coils slave 0 spec.DO) = true) ∧
       (0 < spec.AI → busOk bus (ReadReq.inputRegs slave 0 (spec.AI * 2)) = true) ∧
       (0 < spec.AO → busOk bus (ReadReq.holdingRegs slave 0 (spec.AO * 2)) = true)) := by
  by_cases hdi : 0 < spec.DI
  · cases hb : bus (ReadReq.discreteInputs slave 0 spec.DI) with
    | error e => simp [readCard, hdi, hb, busOk]
    | ok raw => simp [readCard, hdi, hb, busOk, readCardDO_err_iff]
  · simp [readCard, hdi, readCardDO_err_iff]

theorem readCardAO_ok_error (bus : ReadReq → Except String (List Nat)) (fdec : Nat → ℚ)
    (slave : Nat) (spec : ModelSpec) (readAll : Bool) (state : CardState)
    (reqs : List ReadReq)
    (h : (readCardAO bus fdec slave spec readAll state reqs).2.1 = none) :
    (readCardAO bus fdec slave spec readAll state reqs).1.error = state.error := by
  by_cases hao : 0 < spec.AO
  · cases hb : bus (ReadReq.holdingRegs slave 0 (spec.AO * 2)) with
    | error e => simp [readCardAO, hao, hb] at h
    | ok raw =>
      by_cases hra : readAll
      · cases hb2 : bus (ReadReq.holdingRegs slave 400 spec.AO) with
        | ok traw => simp [readCardAO, hao, hb, hb2, hra, readCardFull_error]
        | error e2 => simp [readCardAO, hao, hb, hb2, hra, readCardFull_error]
      · simp [readCardAO, hao, hb, hra, readCardFull_error]
  · simp [readCardAO, hao, readCardFull_error]

theorem readCardAI_ok_error (bus : ReadReq → Except String (List Nat)) (fdec : Nat → ℚ)
    (slave : Nat) (spec : ModelSpec) (readAll : Bool) (state : CardState)
    (reqs : List ReadReq)
    (h : (readCardAI bus fdec slave spec readAll state reqs).2.1 = none) :
    (readCardAI bus fdec slave spec readAll state reqs).1.error = state.error := by
  by_cases hai : 0 < spec.AI
  · cases hb : bus (ReadReq.inputRegs slave 0 (spec.AI * 2)) with
    | error e => simp [readCardAI, hai, hb] at h
    | ok raw =>
      simp only [readCardAI, hai, if_true, hb] at h ⊢
      exact readCardAO_ok_error _ _ _ _ _ _ _ h
  · simp only [readCardAI, hai, if_false] at h ⊢
    exact readCardAO_ok_error _ _ _ _ _ _ _ h

theorem readCardDO_ok_error (bus : ReadReq → Except String (List Nat)) (fdec : Nat → ℚ)
    (slave : Nat) (spec : ModelSpec) (readAll : Bool) (state : CardState)
    (reqs : List ReadReq)
    (h : (readCardDO bus fdec slave spec readAll state reqs).2.1 = none) :
    (readCardDO bus fdec slave spec readAll state reqs).1.error = state.error := by
  by_cases hdo : 0 < spec.DO
  · cases hb : bus (ReadReq.coils slave 0 spec.DO) with
    | error e => simp [readCardDO, hdo, hb] at h
    | ok raw =>
      simp only [readCardDO, hdo, if_true, hb] at h ⊢
      exact readCardAI_ok_error _ _ _ _ _ _ _ h
  · simp only [readCardDO, hdo, if_false] at h ⊢
    exact readCardAI_ok_error _ _ _ _ _ _ _ h

theorem readCard_ok_error (bus : ReadReq → Except String (List Nat)) (fdec : Nat → ℚ)
    (now slave : Nat) (spec : ModelSpec) (readAll : Bool)
    (h : (readCard bus fdec now slave spec readAll).2.1 = none) :
    (readCard bus fdec now slave spec readAll).1.error = "" := by
  by_cases hdi : 0 < spec.DI
  · cases hb : bus (ReadReq.discreteInputs slave 0 spec.DI) with
    | error e => simp [readCard, hdi, hb] at h
    | ok raw =>
      simp only [readCard, hdi, if_true, hb] at h ⊢
      exact readCardDO_ok_error _ _ _ _ _ _ _ h
  · simp only [readCard, hdi, if_false] at h ⊢
    exact readCardDO_ok_error _ _ _ _ _ _ _ h

def fdec0 : Nat → ℚ := fun n => (n : ℚ)

/-- A bus where only the AO-type region read (0x0190) fails. -/
def busC6 : ReadReq → Except String (List Nat)
  | ReadReq.holdingRegs _ 400 _ => .error "aotype read failed"
  | ReadReq.holdingRegs _ 112 _ => .ok (List.replicate 20 0)
  | ReadReq.holdingRegs _ 32 _ => .ok (List.replicate 4 0)
  | ReadReq.holdingRegs _ _ _ => .ok (List.replicate 16 0)
  | ReadReq.inputRegs _ _ _ => .ok (List.replicate 16 0)
  | ReadReq.coils _ _ _ => .ok (List.replicate 1 0)
  | ReadReq.discreteInputs _ _ _ => .ok (List.replicate 1 0)

/-- C6 counterexample: on an IO0404 full read, the AO-type region read fails,
the request was issued, and yet readCard returns success (no abort, state
kept) with AOType simply left empty — contradicting "any sub-read failure
aborts the whole call". -/
theorem readCard_aux_error_tolerated_cex :
    (readCard busC6 fdec0 0 1 (modelTableGet "IO0404") true).2.1 = none ∧
    busOk busC6 (ReadReq.holdingRegs 1 400 4) = false ∧
    ReadReq.holdingRegs 1 400 4 ∈ (readCard busC6 fdec0 0 1 (modelTableGet "IO0404") true).2.2 ∧
    (readCard busC6 fdec0 0 1 (modelTableGet "IO0404") true).1.AOType = [] := by
  decide

def pe0 : String → Bool := fun _ => true

def bfail : ReadReq → Except String (List Nat) := fun _ => .error "bus down"

/-- C8: when a scheduled read of a card fails, the merge step mutates only
the error field of the card's cached state — `last` becomes exactly the old
state with `error := e` — and any subsequent successful read of the card
overwrites the whole state with a fresh one whose error field is empty. -/
theorem read_error_only_mutates_error (portExists : String → Bool)
    (bus : ReadReq → Except String (List Nat)) (fdec : Nat → ℚ) (now : Nat)
    (c : Card) (hp : portExists c.portPath = true) :
    (∀ e, (readCard bus fdec now c.slaveID (modelTableGet c.module)
        c.needsFullRead).2.1 = some e →
      (cycleCardStep portExists bus fdec now c).1.last = { c.last with error := e }) ∧
    ((readCard bus fdec now c.slaveID (modelTableGet c.module)
        c.needsFullRead).2.1 = none →
      (cycleCardStep portExists bus fdec now c).1.last.error = "") := by
  constructor
  · intro e he
    simp only [cycleCardStep, hp, if_true, he]
  · intro hok
    simp only [cycleCardStep, hp, if_true, hok]
    split
    · exact readCard_ok_error _ _ _ _ _ _ hok
    · show (readCard bus fdec now c.slaveID (modelTableGet c.module)
        c.needsFullRead).1.error = ""
      exact readCard_ok_error _ _ _ _ _ _ hok

/-- C8 witness: a failing bus against an IO4040 card — only the error field
of the cached state changes. -/
theorem read_error_only_mutates_error_witness :
    pe0 cardIO4040.portPath = true ∧
    (cycleCardStep pe0 bfail fdec0 0 cardIO4040).1.last =
      { cardIO4040.last with error := "bus down" } :=
  ⟨rfl, (read_error_only_mutates_error pe0 bfail fdec0 0 cardIO4040 rfl).1
    "bus down" (by decide)⟩

/-- C7 (amended): the needsFullRead lifecycle as implemented — AddCard leaves
the flag at its zero value false (it performs the registration full read
directly instead of raising the flag); RebootCard sets the flag true before
the reboot write, so it is true even when that write fails; and the read
cycle consumes the flag: with the port present, the step clears the flag and
issues exactly the reads of a readCard call with fullRead equal to the flag
it consumed. -/
theorem needsFullRead_lifecycle :
    (∀ (m : ManagerState) (portPath : String) (slave : Nat) (module detected : String)
      (portErr : String → Option String) (bus : ReadReq → Except String (List Nat))
      (fdec : Nat → ℚ) (now : Nat) (r : ManagerState × Card × List ReadReq),
      AddCard m portPath slave module detected portErr bus fdec now = .ok r →
      r.2.1.needsFullRead = false) ∧
    (∀ (m : ManagerState) (cardID : String) (portErr : String → Option String)
      (busErr : Frame → Option String) (x : Card),
      x ∈ (RebootCard m cardID portErr busErr).1.cards → x.id = cardID →
      x.needsFullRead = true) ∧
    (∀ (pe : String → Bool) (bus : ReadReq → Except String (List Nat)) (fdec : Nat → ℚ)
      (now : Nat) (c : Card), pe c.portPath = true →
      (cycleCardStep pe bus fdec now c).1.needsFullRead = false ∧
      (cycleCardStep pe bus fdec now c).2 =
        (readCard bus fdec now c.slaveID (modelTableGet c.module)
          c.needsFullRead).2.2) := by
  refine ⟨?_, ?_, ?_⟩
  · intro m portPath slave module detected portErr bus fdec now r h
    simp only [AddCard] at h
    repeat' split at h
    any_goals exact Except.noConfusion h
    all_goals rw [← Except.ok.inj h]
  · intro m cardID portErr busErr x hx hid
    simp only [RebootCard] at hx
    split at hx
    · next hnone =>
      exact absurd (by simp [hid] : (x.id == cardID) = true)
        (List.find?_eq_none.mp hnone x hx)
    · next c hc =>
      split at hx <;>
        (simp only [List.mem_map] at hx
         obtain ⟨y, hy0, rfl⟩ := hx
         by_cases hy : y.id == cardID
         · simp [hy]
         · rw [if_neg hy] at hid ⊢
           exact absurd (by simp [hid]) hy)
  · intro pe bus fdec now c hp
    constructor
    · simp only [cycleCardStep, hp, if_true]
      split
      · rfl
      · split <;> rfl
    · simp only [cycleCardStep, hp, if_true]
      split
      · rfl
      · split <;> rfl

/-- Extracts the returned card's needsFullRead flag from an AddCard result. -/
def addCardFlag (e : Except String (ManagerState × Card × List ReadReq)) : Option Bool :=
  match e with
  | .ok r => some r.2.1.needsFullRead
  | .error _ => none

/-- C7 counterexample: a freshly registered card has needsFullRead = false —
the flag is not "initially true at registration"; AddCard instead performs
its own full read immediately. -/
theorem addCard_flag_initially_false_cex :
    addCardFlag (AddCard { cards := [], nextID := 1 } "/dev/ttyS7" 1 "IO4040" "" pnone
      bfail fdec0 0) = some false := by
  decide

/-- C7 witness: the cycle-step clause applied to a concrete card. -/
theorem needsFullRead_lifecycle_witness :
    pe0 cardIO4040.portPath = true ∧
    (cycleCardStep pe0 bfail fdec0 0 cardIO4040).1.needsFullRead = false :=
  ⟨rfl, (needsFullRead_lifecycle.2.2 pe0 bfail fdec0 0 cardIO4040 rfl).1⟩

/-- C10: AddCard returns the new card with a nil error even when the
registration-time full read fails — once the port is obtained and the module
resolved, the card is inserted into the registry and returned as .ok, and on
read failure its `last` stays the zero CardState with an empty error field. -/
theorem addCard_read_failure_tolerated (m : ManagerState) (portPath : String)
    (slave : Nat) (module detected : String) (portErr : String → Option String)
    (bus : ReadReq → Except String (List Nat)) (fdec : Nat → ℚ) (now : Nat)
    (spec : ModelSpec) (e : String)
    (hport : portErr portPath = none)
    (hmod : (if module = "" then detected else module) ≠ "")
    (hspec : ModelTable (if module = "" then detected else module) = some spec)
    (hfail : (readCard bus fdec now slave spec true).2.1 = some e) :
    AddCard m portPath slave module detected portErr bus fdec now =
      .ok ({ cards := m.cards ++
          [{ id := toString m.nextID, portPath := portPath, slaveID := slave,
             module := spec.Name }], nextID := m.nextID + 1 },
        { id := toString m.nextID, portPath := portPath, slaveID := slave,
          module := spec.Name },
        (readCard bus fdec now slave spec true).2.2) ∧
    ({ id := toString m.nextID, portPath := portPath, slaveID := slave,
       module := spec.Name } : Card).last = CardState.zero ∧
    ({ id := toString m.nextID, portPath := portPath, slaveID := slave,
       module := spec.Name } : Card).last.error = "" := by
  refine ⟨?_, rfl, rfl⟩
  simp only [AddCard, hport]
  rw [if_neg hmod]
  simp only [hspec, hfail]

/-- The card AddCard builds in the C10 witness scenario. -/
def cardW10 : Card :=
  { id := "1", portPath := "/dev/ttyS7", slaveID := 1, module := "IO4040" }

/-- C10 witness: the theorem applied with a dead bus; the card is returned
with needsFullRead false and a zero cached state. -/
theorem addCard_read_failure_tolerated_witness :
    (readCard bfail fdec0 0 1 (⟨"IO4040", 4, 4, 0, 0⟩ : ModelSpec) true).2.1 =
      some "bus down" ∧
    AddCard { cards := [], nextID := 1 } "/dev/ttyS7" 1 "IO4040" "" pnone bfail fdec0 0 =
      .ok ({ cards := [cardW10], nextID := 2 }, cardW10,
        (readCard bfail fdec0 0 1 (⟨"IO4040", 4, 4, 0, 0⟩ : ModelSpec) true).2.2) :=
  ⟨by decide,
    (addCard_read_failure_tolerated { cards := [], nextID := 1 } "/dev/ttyS7" 1 "IO4040" ""
      pnone bfail fdec0 0 ⟨"IO4040", 4, 4, 0, 0⟩ "bus down" rfl (by decide) (by decide)
      (by decide)).1⟩

/-- C9 (amended): an unknown AO-type mode string is not rejected at the
boundary — QueueWriteAOType enqueues it verbatim whenever the card exists
and the index is in range, and the eventual register write at 0x0190+index
substitutes the 4-20mA code 0x0004 for every mode other than "0-10V". -/
theorem unknown_aotype_substituted (cards : List Card) (c : Card)
    (queue : List WriteOperation) (cardID : String) (index : Int) (mode : String)
    (slave : Nat)
    (hcard : getCard cards cardID = some c)
    (h0 : 0 ≤ index) (hmax : index < ((modelTableGet c.module).AO : Int))
    (hmode : mode ≠ "0-10V") :
    QueueWriteAOType cards queue cardID index mode =
      .ok (queue ++ [{ cardID := cardID, type := .AOType, index := index, mode := mode }]) ∧
    writeAOTypeFrame slave index mode = Frame.wsReg slave (400 + index).toNat 4 := by
  constructor
  · simp only [QueueWriteAOType, hcard]
    rw [if_neg (by omega)]
  · simp only [writeAOTypeFrame]
    rw [if_neg (by simp [hmode])]

/-- C9 counterexample: the mode "bogus" is accepted by QueueWriteAOType (no
rejection, the op is enqueued) and writeAOType would put 0x0004 — the
4-20mA code — on the bus for it. -/
theorem unknown_aotype_accepted_cex :
    QueueWriteAOType [cardIO0404] [] "2" 0 "bogus" =
      .ok [{ cardID := "2", type := .AOType, index := 0, mode := "bogus" }] ∧
    writeAOTypeFrame 3 0 "bogus" = Frame.wsReg 3 400 4 := by
  exact ⟨rfl, rfl⟩

/-- C9 witness: the amended theorem applied to the same concrete input. -/
theorem unknown_aotype_substituted_witness :
    ("bogus" ≠ "0-10V") ∧
    QueueWriteAOType [cardIO0404] [] "2" 0 "bogus" =
      .ok [{ cardID := "2", type := .AOType, index := 0, mode := "bogus" }] :=
  ⟨by decide,
    (unknown_aotype_substituted [cardIO0404] cardIO0404 [] "2" 0 "bogus" 3 (by decide)
      (by decide) (by decide) (by decide)).1⟩
